import Mathlib

/-!
Shallow embedding of the HM-CFG-USB libusb driver core (hmcfgusb.c).

The embedding models the four operations the specification's claims are
about, faithfully to the C source:

* `hmcfgusb_interrupt` — the asynchronous receive completion callback.
  Environment inputs (libusb results, the consumer callback's verdict)
  are explicit parameters; the process-wide `quit` flag and the
  `dev->transfer` slot are threaded as explicit state.
* `hmcfgusb_send` — the synchronous send path; the two
  `libusb_interrupt_transfer` return codes are environment inputs.
* `hmcfgusb_add_pfd` — descriptor registration, with the `realloc`
  outcome as an environment input (`none` models a NULL return).
* `hmcfgusb_poll` — the event-source multiplexer, with the results of
  `libusb_get_next_timeout`, `poll` and
  `libusb_handle_events_timeout_completed` as environment inputs.
* `hmcfgusb_init` — channel initialisation, reduced to the fields the
  claims mention (success/failure of each step, the resulting descriptor
  list, and the `quit` reset).
-/

/-- The errno code EIO (5): the value the driver stores in the process-wide
`quit` flag on a fatal transport fault. -/
def eio : Int := 5

/-- One entry of the poll descriptor list (`struct pollfd`): descriptor,
interest mask (`events`) and observed-readiness mask (`revents`). -/
structure Pollfd where
  fd : Int
  events : Int
  revents : Int
deriving DecidableEq, Repr

/-- The transport handle (`struct hmcfgusb_dev`) fields the claims use:
the poll descriptor list (nullable, as after a failed `realloc`), the
total entry count `n_pfd`, the internally-owned count `n_usb_pfd`, and
whether the `transfer` slot is non-NULL. -/
structure HmcfgusbDev where
  pfd : Option (List Pollfd)
  n_pfd : Nat
  n_usb_pfd : Nat
  transfer : Bool
deriving DecidableEq, Repr

/-- libusb transfer completion status, as distinguished by the
completion callback: `LIBUSB_TRANSFER_COMPLETED`,
`LIBUSB_TRANSFER_TIMED_OUT`, or any other status code. -/
inductive TransferStatus where
  | completed
  | timedOut
  | other (code : Int)
deriving DecidableEq, Repr

/-- State read and written by `hmcfgusb_interrupt`: the process-wide
`quit` flag, whether `cb_data->dev->transfer` is non-NULL, and whether
the libusb transfer object itself is still allocated (distinguishing a
dangling `dev->transfer` from a live one). After init, `dev->transfer`
points at the single transfer passed to the callback, so freeing the
slot frees that object. -/
structure IntrState where
  quit : Int
  devTransfer : Bool
  transferAlive : Bool
deriving DecidableEq, Repr

/-- Result of one completion-callback invocation: the state after, plus
two observables — whether the consumer callback was invoked and whether
`libusb_submit_transfer` was called to re-arm the transfer. -/
structure IntrResult where
  state : IntrState
  cbInvoked : Bool
  resubmitted : Bool
deriving DecidableEq, Repr

/-- The fatal-path cleanup in `hmcfgusb_interrupt`:
`if (cb_data && cb_data->dev && cb_data->dev->transfer) { libusb_free_transfer(...); cb_data->dev->transfer = NULL; }`
(`cb_data` and `cb_data->dev` are always non-NULL after init). -/
def freeDevTransfer (s : IntrState) : IntrState :=
  if s.devTransfer then { s with devTransfer := false, transferAlive := false } else s

/-- The tail of `hmcfgusb_interrupt`: `err = libusb_submit_transfer(transfer);
if (err != 0) { libusb_free_transfer(transfer); }` — on failure the transfer
object is freed but neither `quit` nor `dev->transfer` is touched. -/
def resubmit (s : IntrState) (cbInvoked : Bool) (submitOk : Bool) : IntrResult :=
  if submitOk then ⟨s, cbInvoked, true⟩
  else ⟨{ s with transferAlive := false }, cbInvoked, true⟩

/-- The receive completion callback `hmcfgusb_interrupt`. Parameters:
the completion status, whether a consumer callback is registered
(`cb_data->cb`), whether that callback accepts the buffer (its nonzero
return), and whether `libusb_submit_transfer` succeeds. -/
def hmcfgusb_interrupt (s : IntrState) (status : TransferStatus)
    (cbPresent cbAccepts submitOk : Bool) : IntrResult :=
  match status with
  | .other _ => ⟨freeDevTransfer { s with quit := eio }, false, false⟩
  | .timedOut => resubmit s false submitOk
  | .completed =>
      if cbPresent then
        if cbAccepts then resubmit s true submitOk
        else ⟨freeDevTransfer { s with quit := eio }, true, false⟩
      else resubmit s false submitOk

/-- The send path `hmcfgusb_send`. `err1` is the return code of the first
`libusb_interrupt_transfer` on EP_OUT, `done` the finalize request, and
`err2` the return code of the zero-length terminator transfer (only
consulted when `done` holds). The process-wide `quit` flag is threaded
through unchanged because the C function never references it. Returns
(return value, quit after). -/
def hmcfgusb_send (quit : Int) (err1 : Int) (done : Bool) (err2 : Int) : Int × Int :=
  if err1 ≠ 0 then (0, quit)
  else if done then
    if err2 ≠ 0 then (0, quit) else (1, quit)
  else (1, quit)

/-- Descriptor registration `hmcfgusb_add_pfd`. The C code increments
`n_pfd`, then `dev->pfd = realloc(dev->pfd, n_pfd * sizeof(...))`; a
failed `realloc` (modelled by `reallocOk = false`) leaves `n_pfd`
incremented and `dev->pfd` NULL, returning 0. On success the old
contents are preserved (first `n_pfd - 1` slots) and the new last slot
is written with (fd, events, 0). -/
def hmcfgusb_add_pfd (dev : HmcfgusbDev) (fd : Int) (events : Int)
    (reallocOk : Bool) : Int × HmcfgusbDev :=
  let n := dev.n_pfd + 1
  if reallocOk then
    let old := (dev.pfd.getD []).take (n - 1)
    (1, { dev with n_pfd := n, pfd := some (old ++ [⟨fd, events, 0⟩]) })
  else
    (0, { dev with n_pfd := n, pfd := none })

/-- Environment of `hmcfgusb_init`: success of `libusb_init`,
`hmcfgusb_find`, the two mallocs, `hmcfgusb_prepare_int`, the pollfd set
returned by `libusb_get_pollfds` ((fd, events) pairs, `none` for NULL),
and the pollfd-array malloc. -/
structure InitEnv where
  libusbInitOk : Bool
  findOk : Bool
  devAllocOk : Bool
  cbDataAllocOk : Bool
  prepareOk : Bool
  usbPfds : Option (List (Int × Int))
  pfdAllocOk : Bool
deriving DecidableEq, Repr

/-- Channel initialisation `hmcfgusb_init`. Every failure path returns
NULL without touching `quit`; on success the internally-owned pollfd
segment is copied from libusb, `n_pfd = n_usb_pfd`, the receive transfer
is armed, and `quit = 0` is the last assignment. Returns
(quit after, handle or NULL). -/
def hmcfgusb_init (quit : Int) (env : InitEnv) : Int × Option HmcfgusbDev :=
  if env.libusbInitOk = false then (quit, none)
  else if env.findOk = false then (quit, none)
  else if env.devAllocOk = false then (quit, none)
  else if env.cbDataAllocOk = false then (quit, none)
  else if env.prepareOk = false then (quit, none)
  else
    match env.usbPfds with
    | none => (quit, none)
    | some ps =>
        if env.pfdAllocOk = false then (quit, none)
        else (0, some ⟨some (ps.map (fun p => Pollfd.mk p.1 p.2 0)), ps.length, ps.length, true⟩)

/-- Result of `libusb_get_next_timeout`: negative return (`fail`), zero
return (no pending timeout), or positive return with the remaining time
as (tv_sec, tv_usec). -/
inductive NextTimeout where
  | fail
  | nonePending
  | pending (sec usec : Int)
deriving DecidableEq, Repr

/-- Outcome of the readiness scan loop in `hmcfgusb_poll`: the first
ready descriptor was internally owned (`usbEvent`), the first ready
descriptor was caller-registered (`callerFd`, carrying its fd), or the
loop ran off the end without finding a ready entry. -/
inductive ScanOut where
  | usbEvent
  | callerFd (fd : Int)
  | nothingReady
deriving DecidableEq, Repr

/-- The scan loop of `hmcfgusb_poll`:
`for (fd_n = 0; fd_n < n_pfd; fd_n++) if (pfd[fd_n].revents) { if (fd_n < n_usb_pfd) { usb_event = 1; break; } else return pfd[fd_n].fd; }`. -/
def pollScan (nUsb : Nat) : Nat → List Pollfd → ScanOut
  | _, [] => .nothingReady
  | idx, p :: ps =>
      if p.revents ≠ 0 then
        if idx < nUsb then .usbEvent else .callerFd p.fd
      else pollScan nUsb (idx + 1) ps

/-- Clearing of every `revents` field before the `poll` call. -/
def clearRevents (ps : List Pollfd) : List Pollfd :=
  ps.map (fun p => { p with revents := 0 })

/-- The kernel filling in `revents` during `poll`: entry i receives the
i-th reported readiness mask. -/
def setRevents : List Pollfd → List Int → List Pollfd
  | p :: ps, r :: rs => { p with revents := r } :: setRevents ps rs
  | ps, _ => ps

/-- The number of descriptors `poll` reports ready (its return value `n`
in the non-error case). -/
def countReady (revs : List Int) : Nat :=
  (revs.filter (fun r => r ≠ 0)).length

/-- Result of one `hmcfgusb_poll` call: return value, errno on return,
the `quit` flag after the call, and three observables — whether `poll`
was called, the millisecond bound passed to it (0 when it was not
called), and whether `libusb_handle_events_timeout_completed` ran. -/
structure PollRes where
  ret : Int
  errno : Int
  quitAfter : Int
  pollCalled : Bool
  pollTimeoutMs : Int
  handleEventsCalled : Bool
deriving DecidableEq, Repr

/-- The tail of `hmcfgusb_poll` once the usb_event decision is made:
run `libusb_handle_events_timeout_completed` with a zero timeout if
`usb_event` is set (errno = EIO and return -1 on its failure), then
`errno = 0; if (quit) errno = quit; return -1;`. -/
def finishPoll (quit : Int) (pollCalled : Bool) (bound : Int)
    (usbEvent heOk : Bool) : PollRes :=
  if usbEvent ∧ heOk = false then ⟨-1, eio, quit, pollCalled, bound, true⟩
  else ⟨-1, if quit ≠ 0 then quit else 0, quit, pollCalled, bound, usbEvent⟩

/-- The poll step of `hmcfgusb_poll`: clear `revents`, call
`poll(dev->pfd, dev->n_pfd, tv.tv_sec * 1000)` (bound precomputed by the
caller as `bound`), then dispatch on its result: negative → errno = 0,
return -1; zero → usb_event; positive → scan for the first ready entry. -/
def pollPhase (quit : Int) (dev : HmcfgusbDev) (bound : Int)
    (pollRevs : Option (List Int)) (heOk : Bool) : PollRes :=
  match pollRevs with
  | none => ⟨-1, 0, quit, true, bound, false⟩
  | some revs =>
      if countReady revs = 0 then finishPoll quit true bound true heOk
      else
        match pollScan dev.n_usb_pfd 0 (setRevents (clearRevents (dev.pfd.getD [])) revs) with
        | .callerFd f => ⟨f, 0, quit, true, bound, false⟩
        | .usbEvent => finishPoll quit true bound true heOk
        | .nothingReady => finishPoll quit true bound false heOk

/-- The multiplexer wait operation `hmcfgusb_poll`. Parameters: the
`quit` flag, the handle, the caller timeout in seconds, the
`libusb_get_next_timeout` outcome, the `poll` outcome (`none` for a
negative return, otherwise the reported `revents` per entry), and
whether `libusb_handle_events_timeout_completed` succeeds. A negative
`libusb_get_next_timeout` return yields errno = EIO, return -1; a zero
return uses the caller timeout as the bound; a pending timer of exactly
(0, 0) skips the poll step (`usb_event = 1`); otherwise the bound is
`tv.tv_sec * 1000` — the `tv_usec` part is dropped. -/
def hmcfgusb_poll (quit : Int) (dev : HmcfgusbDev) (timeout : Int)
    (nt : NextTimeout) (pollRevs : Option (List Int)) (heOk : Bool) : PollRes :=
  match nt with
  | .fail => ⟨-1, eio, quit, false, 0, false⟩
  | .nonePending => pollPhase quit dev (timeout * 1000) pollRevs heOk
  | .pending s u =>
      if s = 0 ∧ u = 0 then finishPoll quit false 0 true heOk
      else pollPhase quit dev (s * 1000) pollRevs heOk

/-! Claim theorems. -/

/-- C1 (code bug): the code evaluated at the failing input — a completed
transfer whose consumer callback accepts the buffer, followed by a
failed resubmission, starting from quit = 0. The DEAD transition (c) is
taken (the transfer object is freed), yet quit stays 0 and
`dev->transfer` is left dangling (still non-NULL while the object is
freed), contradicting the claim that a failed resubmission sets the quit
flag to a nonzero value. -/
theorem C1_resubmit_failure_leaves_quit_clear :
    hmcfgusb_interrupt ⟨0, true, true⟩ .completed true true false =
      ⟨⟨0, true, false⟩, true, true⟩ := by decide

/-- C3: a timed-out completion is benign — the consumer callback is not
invoked, the quit flag is unchanged, the same transfer is resubmitted,
and when the resubmission succeeds the whole state is unchanged (the
engine stays ARMED). -/
theorem C3_timed_out_benign (s : IntrState) (cbPresent cbAccepts submitOk : Bool) :
    (hmcfgusb_interrupt s .timedOut cbPresent cbAccepts submitOk).cbInvoked = false ∧
    (hmcfgusb_interrupt s .timedOut cbPresent cbAccepts submitOk).state.quit = s.quit ∧
    (hmcfgusb_interrupt s .timedOut cbPresent cbAccepts submitOk).resubmitted = true ∧
    (submitOk = true → (hmcfgusb_interrupt s .timedOut cbPresent cbAccepts submitOk).state = s) := by
  cases submitOk <;> simp [hmcfgusb_interrupt, resubmit]

/-- C3 witness: the timed-out theorem at a concrete state with a
successful resubmission. -/
theorem C3_witness :
    (hmcfgusb_interrupt ⟨0, true, true⟩ .timedOut true true true).cbInvoked = false ∧
    (hmcfgusb_interrupt ⟨0, true, true⟩ .timedOut true true true).state.quit =
      (IntrState.mk 0 true true).quit ∧
    (hmcfgusb_interrupt ⟨0, true, true⟩ .timedOut true true true).resubmitted = true ∧
    (true = true → (hmcfgusb_interrupt ⟨0, true, true⟩ .timedOut true true true).state =
      ⟨0, true, true⟩) :=
  C3_timed_out_benign ⟨0, true, true⟩ true true true

/-- C7: `hmcfgusb_send` returns success (1) exactly when the first
transfer succeeds and, if finalize was requested, the zero-length
terminator transfer also succeeds. -/
theorem C7_send_success_iff (quit err1 : Int) (done : Bool) (err2 : Int) :
    (hmcfgusb_send quit err1 done err2).1 = 1 ↔
      (err1 = 0 ∧ (done = true → err2 = 0)) := by
  by_cases h1 : err1 = 0 <;> cases done <;> by_cases h2 : err2 = 0 <;>
    simp [hmcfgusb_send, h1, h2]

/-- C7 witness: the success iff at a concrete input — first transfer
succeeds, finalize requested, terminator succeeds, overall success. -/
theorem C7_witness : (hmcfgusb_send 0 0 true 0).1 = 1 :=
  (C7_send_success_iff 0 0 true 0).mpr ⟨rfl, fun _ => rfl⟩

/-- C9: `hmcfgusb_send` never changes the process-wide quit flag,
whatever the outcome of either transfer. -/
theorem C9_send_preserves_quit (quit err1 : Int) (done : Bool) (err2 : Int) :
    (hmcfgusb_send quit err1 done err2).2 = quit := by
  by_cases h1 : err1 ≠ 0 <;> cases done <;> by_cases h2 : err2 ≠ 0 <;>
    simp [hmcfgusb_send, h1, h2]

/-- C10: a failed registration (realloc returns NULL) returns 0 but has
already incremented `n_pfd` and replaced the descriptor list by NULL, so
the count no longer matches the list contents. -/
theorem C10_add_pfd_failure (dev : HmcfgusbDev) (fd events : Int) :
    (hmcfgusb_add_pfd dev fd events false).1 = 0 ∧
    (hmcfgusb_add_pfd dev fd events false).2.n_pfd = dev.n_pfd + 1 ∧
    (hmcfgusb_add_pfd dev fd events false).2.pfd = none := by
  simp [hmcfgusb_add_pfd]

/-! Helper lemmas about the poll phases. -/

/-- Both branches of `finishPoll` return -1 with the quit flag untouched
and the poll observables as passed in. -/
lemma finishPoll_fields (quit : Int) (pc : Bool) (b : Int) (ue he : Bool) :
    (finishPoll quit pc b ue he).ret = -1 ∧
    (finishPoll quit pc b ue he).quitAfter = quit ∧
    (finishPoll quit pc b ue he).pollCalled = pc ∧
    (finishPoll quit pc b ue he).pollTimeoutMs = b := by
  unfold finishPoll; split <;> exact ⟨rfl, rfl, rfl, rfl⟩

/-- Every branch of the poll step marks `poll` as called with the given
bound and leaves the quit flag untouched. -/
lemma pollPhase_fields (quit : Int) (dev : HmcfgusbDev) (b : Int)
    (pollRevs : Option (List Int)) (heOk : Bool) :
    (pollPhase quit dev b pollRevs heOk).pollCalled = true ∧
    (pollPhase quit dev b pollRevs heOk).pollTimeoutMs = b ∧
    (pollPhase quit dev b pollRevs heOk).quitAfter = quit := by
  have hf : ∀ ue : Bool, (finishPoll quit true b ue heOk).pollCalled = true ∧
      (finishPoll quit true b ue heOk).pollTimeoutMs = b ∧
      (finishPoll quit true b ue heOk).quitAfter = quit := by
    intro ue; unfold finishPoll; split <;> exact ⟨rfl, rfl, rfl⟩
  rcases pollRevs with _ | revs
  · exact ⟨rfl, rfl, rfl⟩
  · simp only [pollPhase]
    by_cases hc : countReady revs = 0
    · rw [if_pos hc]; exact hf true
    · rw [if_neg hc]
      rcases hs : pollScan dev.n_usb_pfd 0 (setRevents (clearRevents (dev.pfd.getD [])) revs)
        with _ | f | _ <;> simp only [hs]
      · exact hf true
      · simp
      · exact hf false

/-- If some reported readiness mask is nonzero, `poll` reported a
positive count. -/
lemma countReady_ne_zero : ∀ (revs : List Int) (i : Nat), i < revs.length →
    revs.getD i 0 ≠ 0 → countReady revs ≠ 0 := by
  intro revs
  induction revs with
  | nil => intro i hi _; simp at hi
  | cons r rs ih =>
      intro i hi hr
      cases i with
      | zero =>
          have hr0 : r ≠ 0 := by simpa using hr
          simp [countReady, List.filter_cons, hr0]
      | succ j =>
          have hrec := ih j (by simpa using hi) (by simpa using hr)
          by_cases h : r = 0
          · simpa [countReady, List.filter_cons, h] using hrec
          · simp [countReady, List.filter_cons, h]

/-- The scan loop returns the fd of the first ready entry whenever that
entry's index (counted from the loop's start index k) falls in the
caller-registered segment. -/
lemma pollScan_first_caller (nUsb : Nat) :
    ∀ (l : List Pollfd) (revs : List Int) (k i : Nat),
      revs.length = l.length →
      i < revs.length →
      revs.getD i 0 ≠ 0 →
      (∀ j, j < i → revs.getD j 0 = 0) →
      nUsb ≤ k + i →
      pollScan nUsb k (setRevents (clearRevents l) revs) =
        .callerFd ((l.getD i ⟨0, 0, 0⟩).fd) := by
  intro l
  induction l with
  | nil =>
      intro revs k i hlen hi _ _ _
      simp only [List.length_nil] at hlen
      omega
  | cons p ps ih =>
      intro revs k i hlen hi hready hfirst hk
      rcases revs with _ | ⟨r, rs⟩
      · simp at hi
      · cases i with
        | zero =>
            have hr : r ≠ 0 := by simpa using hready
            have hnlt : ¬ k < nUsb := by omega
            simp [clearRevents, setRevents, pollScan, hr, hnlt]
        | succ j =>
            have hr0 : r = 0 := by simpa using hfirst 0 (Nat.succ_pos j)
            have hrec := ih rs (k + 1) j (by simpa using hlen) (by simpa using hi)
              (by simpa using hready)
              (fun m hm => by simpa using hfirst (m + 1) (by omega))
              (by omega)
            simpa [clearRevents, setRevents, pollScan, hr0] using hrec

/-- C5: a pending internal timer of exactly zero remaining time skips
the poll step entirely and goes straight to internal event servicing. -/
theorem C5_zero_timer_skips_poll (quit : Int) (dev : HmcfgusbDev) (timeout : Int)
    (pollRevs : Option (List Int)) (heOk : Bool) :
    (hmcfgusb_poll quit dev timeout (.pending 0 0) pollRevs heOk).pollCalled = false ∧
    (hmcfgusb_poll quit dev timeout (.pending 0 0) pollRevs heOk).handleEventsCalled = true := by
  cases heOk <;> simp [hmcfgusb_poll, finishPoll]

/-- C6 counterexample: a pending timer of 0 s 500000 µs (half a second)
makes `hmcfgusb_poll` call `poll` with a 0 ms bound — the sub-second
fraction is dropped — while the full reported duration would be 500 ms. -/
theorem C6_counterexample :
    (hmcfgusb_poll 0 ⟨some [], 0, 0, true⟩ 7 (.pending 0 500000) (some []) true).pollCalled
        = true ∧
    (hmcfgusb_poll 0 ⟨some [], 0, 0, true⟩ 7 (.pending 0 500000) (some []) true).pollTimeoutMs
        = 0 ∧
    (0 : Int) * 1000 + 500000 / 1000 = 500 ∧ (0 : Int) ≠ 500 := by decide

/-- C6 amended: with a pending internal timer of nonzero remaining time,
the blocking poll runs and its bound is the whole-seconds part of the
remaining time times 1000 (the tv_usec fraction is truncated away),
instead of the caller-supplied timeout. -/
theorem C6_amended_whole_second_bound (quit : Int) (dev : HmcfgusbDev)
    (timeout s u : Int) (pollRevs : Option (List Int)) (heOk : Bool)
    (h : ¬(s = 0 ∧ u = 0)) :
    (hmcfgusb_poll quit dev timeout (.pending s u) pollRevs heOk).pollCalled = true ∧
    (hmcfgusb_poll quit dev timeout (.pending s u) pollRevs heOk).pollTimeoutMs = s * 1000 := by
  simp only [hmcfgusb_poll, if_neg h]
  exact ⟨(pollPhase_fields quit dev (s * 1000) pollRevs heOk).1,
         (pollPhase_fields quit dev (s * 1000) pollRevs heOk).2.1⟩

/-- C6 witness: the amended bound theorem at a pending timer of 2 s 0 µs. -/
theorem C6_witness :
    (hmcfgusb_poll 0 ⟨some [], 0, 0, true⟩ 7 (.pending 2 0) (some []) true).pollCalled = true ∧
    (hmcfgusb_poll 0 ⟨some [], 0, 0, true⟩ 7 (.pending 2 0) (some []) true).pollTimeoutMs
        = 2 * 1000 :=
  C6_amended_whole_second_bound 0 ⟨some [], 0, 0, true⟩ 7 2 0 (some []) true (by decide)

/-- C8: a successful registration appends the new (fd, events, 0) entry
at the end of the descriptor list, keeps every earlier entry at its
value and position, increments the total count, and leaves the
internally-owned boundary unchanged. -/
theorem C8_add_pfd_appends (dev : HmcfgusbDev) (fd events : Int) (l : List Pollfd)
    (hpfd : dev.pfd = some l) (hlen : l.length = dev.n_pfd) :
    (hmcfgusb_add_pfd dev fd events true).1 = 1 ∧
    (hmcfgusb_add_pfd dev fd events true).2.pfd = some (l ++ [⟨fd, events, 0⟩]) ∧
    (∀ i, i < l.length →
      (l ++ [Pollfd.mk fd events 0]).getD i ⟨0, 0, 0⟩ = l.getD i ⟨0, 0, 0⟩) ∧
    (hmcfgusb_add_pfd dev fd events true).2.n_pfd = dev.n_pfd + 1 ∧
    (hmcfgusb_add_pfd dev fd events true).2.n_usb_pfd = dev.n_usb_pfd := by
  refine ⟨rfl, ?_, ?_, rfl, rfl⟩
  · simp [hmcfgusb_add_pfd, hpfd, ← hlen]
  · intro i hi
    exact List.getD_append l [⟨fd, events, 0⟩] ⟨0, 0, 0⟩ i hi

/-- C8 witness: the append theorem at a one-entry list, dropping the
quantified conjunct by projection. -/
theorem C8_witness :
    (hmcfgusb_add_pfd ⟨some [⟨2, 1, 0⟩], 1, 1, true⟩ 6 1 true).1 = 1 ∧
    (hmcfgusb_add_pfd ⟨some [⟨2, 1, 0⟩], 1, 1, true⟩ 6 1 true).2.pfd =
      some ([⟨2, 1, 0⟩] ++ [⟨6, 1, 0⟩]) ∧
    (hmcfgusb_add_pfd ⟨some [⟨2, 1, 0⟩], 1, 1, true⟩ 6 1 true).2.n_pfd = 1 + 1 ∧
    (hmcfgusb_add_pfd ⟨some [⟨2, 1, 0⟩], 1, 1, true⟩ 6 1 true).2.n_usb_pfd = 1 := by
  have h := C8_add_pfd_appends ⟨some [⟨2, 1, 0⟩], 1, 1, true⟩ 6 1 [⟨2, 1, 0⟩] rfl rfl
  exact ⟨h.1, h.2.1, h.2.2.2.1, h.2.2.2.2⟩

/-- C2 counterexample: with the internal descriptor (fd 3, index 0) and
the caller-registered descriptor (fd 7, index 1) both reported ready in
the same round, `hmcfgusb_poll` treats the round as internal servicing
and returns -1, not the caller descriptor's fd 7. -/
theorem C2_counterexample :
    (hmcfgusb_poll 0 ⟨some [⟨3, 1, 0⟩, ⟨7, 1, 0⟩], 2, 1, true⟩ 1 .nonePending
        (some [1, 1]) true).ret = -1 ∧ (-1 : Int) ≠ 7 := by decide

/-- C2 amended: when the poll step runs and the earliest ready
descriptor in list order lies in the caller-registered segment (in
particular, whenever no internally-owned descriptor is ready), that
descriptor's fd is returned with errno 0; a ready internally-owned
descriptor earlier in the list instead turns the round into internal
servicing. -/
theorem C2_amended_first_ready_caller_fd
    (quit : Int) (dev : HmcfgusbDev) (timeout : Int) (nt : NextTimeout)
    (l : List Pollfd) (revs : List Int) (heOk : Bool) (i : Nat)
    (hpfd : dev.pfd = some l)
    (hlen : revs.length = l.length)
    (hnt : nt = .nonePending ∨ ∃ s u, nt = .pending s u ∧ ¬(s = 0 ∧ u = 0))
    (hi : i < revs.length)
    (hready : revs.getD i 0 ≠ 0)
    (hfirst : ∀ j, j < i → revs.getD j 0 = 0)
    (hseg : dev.n_usb_pfd ≤ i) :
    (hmcfgusb_poll quit dev timeout nt (some revs) heOk).ret = (l.getD i ⟨0, 0, 0⟩).fd ∧
    (hmcfgusb_poll quit dev timeout nt (some revs) heOk).errno = 0 := by
  have hscan := pollScan_first_caller dev.n_usb_pfd l revs 0 i hlen hi hready hfirst
    (by omega)
  have hcr := countReady_ne_zero revs i hi hready
  rcases hnt with h | ⟨s, u, h, hsu⟩ <;> subst h
  · simp [hmcfgusb_poll, pollPhase, hpfd, hcr, hscan]
  · simp [hmcfgusb_poll, hsu, pollPhase, hpfd, hcr, hscan]

/-- C2 witness: the amended theorem with only the caller descriptor
(fd 7, index 1) ready; its fd is returned. -/
theorem C2_witness :
    (hmcfgusb_poll 0 ⟨some [⟨3, 1, 0⟩, ⟨7, 1, 0⟩], 2, 1, true⟩ 1 .nonePending
        (some [0, 1]) true).ret =
      (([⟨3, 1, 0⟩, ⟨7, 1, 0⟩] : List Pollfd).getD 1 ⟨0, 0, 0⟩).fd ∧
    (hmcfgusb_poll 0 ⟨some [⟨3, 1, 0⟩, ⟨7, 1, 0⟩], 2, 1, true⟩ 1 .nonePending
        (some [0, 1]) true).errno = 0 :=
  C2_amended_first_ready_caller_fd 0 ⟨some [⟨3, 1, 0⟩, ⟨7, 1, 0⟩], 2, 1, true⟩ 1
    .nonePending [⟨3, 1, 0⟩, ⟨7, 1, 0⟩] [0, 1] true 1 rfl rfl (Or.inl rfl)
    (by decide) (by decide)
    (fun j hj => by interval_cases j; rfl)
    (by decide)

/-- C4 counterexample: with the quit flag latched at 5 and the
caller-registered descriptor (fd 9) ready, the next `hmcfgusb_poll` call
returns that fd with errno 0 — it does not report the stored error. -/
theorem C4_counterexample :
    (hmcfgusb_poll 5 ⟨some [⟨4, 1, 0⟩, ⟨9, 1, 0⟩], 2, 1, true⟩ 1 .nonePending
        (some [0, 1]) true).ret = 9 ∧
    (hmcfgusb_poll 5 ⟨some [⟨4, 1, 0⟩, ⟨9, 1, 0⟩], 2, 1, true⟩ 1 .nonePending
        (some [0, 1]) true).errno = 0 ∧ (5 : Int) ≠ 0 := by decide

/-- C4 amended: (1) a successful init resets the quit flag to zero;
(2) `hmcfgusb_poll` never writes the quit flag; (3) once the flag holds
a nonzero code, every `hmcfgusb_poll` call that reaches the final quit
check — one that does not fail in `libusb_get_next_timeout`, does not
see a negative `poll` return, runs event handling successfully, and does
not return early with a ready caller-registered descriptor — returns -1
with errno set to that exact stored code. -/
theorem C4_amended_quit_lifecycle :
    (∀ (q : Int) (env : InitEnv) (d : HmcfgusbDev),
        (hmcfgusb_init q env).2 = some d → (hmcfgusb_init q env).1 = 0) ∧
    (∀ (q : Int) (dev : HmcfgusbDev) (timeout : Int) (nt : NextTimeout)
        (pollRevs : Option (List Int)) (heOk : Bool),
        (hmcfgusb_poll q dev timeout nt pollRevs heOk).quitAfter = q) ∧
    (∀ (q : Int) (dev : HmcfgusbDev) (timeout : Int) (nt : NextTimeout)
        (revs : List Int),
        q ≠ 0 → nt ≠ NextTimeout.fail →
        (∀ f, pollScan dev.n_usb_pfd 0
            (setRevents (clearRevents (dev.pfd.getD [])) revs) ≠ .callerFd f) →
        (hmcfgusb_poll q dev timeout nt (some revs) true).ret = -1 ∧
        (hmcfgusb_poll q dev timeout nt (some revs) true).errno = q) := by
  refine ⟨?_, ?_, ?_⟩
  · intro q env d h
    rcases env with ⟨li, fo, da, cda, po, ups, pa⟩
    cases li <;> cases fo <;> cases da <;> cases cda <;> cases po <;> cases pa <;>
      rcases ups with _ | ps <;> simp_all [hmcfgusb_init]
  · intro q dev timeout nt pollRevs heOk
    cases nt with
    | fail => rfl
    | nonePending => exact (pollPhase_fields q dev (timeout * 1000) pollRevs heOk).2.2
    | pending s u =>
        simp only [hmcfgusb_poll]
        split
        · exact (finishPoll_fields q false 0 true heOk).2.1
        · exact (pollPhase_fields q dev (s * 1000) pollRevs heOk).2.2
  · intro q dev timeout nt revs hq hnt hscan
    have hfin : ∀ (pc : Bool) (b : Int) (ue : Bool),
        (finishPoll q pc b ue true).ret = -1 ∧ (finishPoll q pc b ue true).errno = q := by
      intro pc b ue
      simp [finishPoll, hq]
    have hphase : ∀ b : Int,
        (pollPhase q dev b (some revs) true).ret = -1 ∧
        (pollPhase q dev b (some revs) true).errno = q := by
      intro b
      simp only [pollPhase]
      by_cases hc : countReady revs = 0
      · rw [if_pos hc]; exact hfin true b true
      · rw [if_neg hc]
        rcases hs : pollScan dev.n_usb_pfd 0 (setRevents (clearRevents (dev.pfd.getD [])) revs)
          with _ | f | _ <;> simp only [hs]
        · exact hfin true b true
        · exact absurd hs (hscan f)
        · exact hfin true b false
    cases nt with
    | fail => exact absurd rfl hnt
    | nonePending => exact hphase (timeout * 1000)
    | pending s u =>
        simp only [hmcfgusb_poll]
        split
        · exact hfin false 0 true
        · exact hphase (s * 1000)

/-- C4 witness: the three amended parts at concrete inputs — an init
environment in which every step succeeds, and a poll round (quit = 5,
one internal descriptor, nothing ready) that reports errno 5. -/
theorem C4_witness :
    (hmcfgusb_init 5 ⟨true, true, true, true, true, some [(3, 1)], true⟩).1 = 0 ∧
    (hmcfgusb_poll 5 ⟨some [⟨3, 1, 0⟩], 1, 1, true⟩ 1 .nonePending (some [0]) true).quitAfter
        = 5 ∧
    (hmcfgusb_poll 5 ⟨some [⟨3, 1, 0⟩], 1, 1, true⟩ 1 .nonePending (some [0]) true).ret
        = -1 ∧
    (hmcfgusb_poll 5 ⟨some [⟨3, 1, 0⟩], 1, 1, true⟩ 1 .nonePending (some [0]) true).errno
        = 5 := by
  have h3 := C4_amended_quit_lifecycle.2.2 5 ⟨some [⟨3, 1, 0⟩], 1, 1, true⟩ 1
    .nonePending [0] (by decide) (by decide)
    (fun f hf => by simp [pollScan, setRevents, clearRevents] at hf)
  exact ⟨C4_amended_quit_lifecycle.1 5 ⟨true, true, true, true, true, some [(3, 1)], true⟩
      ⟨some [⟨3, 1, 0⟩], 1, 1, true⟩ rfl,
    C4_amended_quit_lifecycle.2.1 5 ⟨some [⟨3, 1, 0⟩], 1, 1, true⟩ 1 .nonePending
      (some [0]) true,
    h3.1, h3.2⟩
